import Mathlib

/-
Verification of the createUserFormSchema validation logic of the
forms-avancado-react repository (src/unnamed/part_000 and src/src/App.tsx).

The zod schema is embedded shallowly:
  - each field schema becomes a Lean function from the raw submitted value to
    either a list of issue messages or the normalized value;
  - a JS exception thrown inside a refine or transform callback is modelled by
    an outer Except String layer (the error carries a tag for the TypeError);
  - zod semantics followed: chained refines all run even after an earlier
    refine failed (status dirty, not aborted), a transform runs only when the
    inner parse is fully valid, string checks run in order and accumulate
    issues, an array length check runs before the elements are parsed, an
    invalid_type on an element aborts the array so an array-level refine is
    skipped, and the object parses every key (no cross-field short-circuit).
  - JS numbers reachable here are exact decimals, modelled by Rat; the
    Number(string) coercion is modelled on the decimal-literal fragment of its
    grammar (other forms give none, the NaN case). Character case mapping is
    modelled on ASCII.
-/

structure FileEntry where
  name : String
  size : Nat
  type : String
deriving DecidableEq, Repr

structure RawTech where
  title : String
  knowledge : String
deriving DecidableEq, Repr

structure TechEntry where
  title : String
  knowledge : Rat
deriving DecidableEq, Repr

/-- Maximum avatar file size from the source, 5MB. -/
def MAX_FILE_SIZE : Nat := 5 * 1024 * 1024

def mimeJpeg : String := "image/jpeg"

def mimeJpg : String := "image/jpg"

def mimePng : String := "image/png"

def mimeWebp : String := "image/webp"

def mimeGif : String := "image/gif"

/-- Accepted avatar image MIME types from the source. -/
def ACCEPTED_IMAGE_TYPES : List String := [mimeJpeg, mimeJpg, mimePng, mimeWebp]

def avatarRequiredMsg : String := "A imagem de perfil é obrigatória"

def avatarSizeMsg : String := "Tamanho máximo de 5MB"

def avatarTypeMsg : String := "Formato de imagem inválido"

def nameRequiredMsg : String := "O nome é obrigatório"

def emailRequiredMsg : String := "O email é obrigatório"

def emailFormatMsg : String := "Formato de email inválido"

def hotmailMsg : String := "O email precisa ser do hotmail"

def hotmailSuffix : String := "@hotmail.com"

def passwordMsg : String := "A senha precisa de no mínimo 6 caracteres"

def titleRequiredMsg : String := "O título é obrigatório"

def nanMsg : String := "Expected number, received nan"

def knowledgeMinMsg : String := "Number must be greater than or equal to 1"

def knowledgeMaxMsg : String := "Number must be less than or equal to 100"

def minTechsMsg : String := "Insira pelo menos 2 tecnologias"

def learningMsg : String := "Você está aprendendo"

def requiredMsg : String := "Required"

/-- Tag for the TypeError thrown when the second avatar refine reads the size
of a null files.item(0). -/
def nullSizeMsg : String := "TypeError: cannot read size of null"

/-- Tag for the TypeError thrown when the name transform calls
toLocaleUpperCase on the undefined first character of an empty word. -/
def undefinedUpperMsg : String := "TypeError: cannot call toLocaleUpperCase of undefined"

/-- JS String.prototype.trim on the character list. -/
def trimChars (cs : List Char) : List Char :=
  ((cs.dropWhile Char.isWhitespace).reverse.dropWhile Char.isWhitespace).reverse

/-- JS String.prototype.split with a one-character separator: keeps empty
segments, and the empty string splits to one empty segment. -/
def splitOnChar (sep : Char) : List Char → List (List Char)
  | [] => [[]]
  | c :: cs =>
    let r := splitOnChar sep cs
    if c = sep then [] :: r
    else
      match r with
      | w :: ws => (c :: w) :: ws
      | [] => [[c]]

/-- JS String.prototype.toLowerCase, ASCII fragment. -/
def jsToLower (s : String) : String := String.mk (s.data.map Char.toLower)

/-- JS String.prototype.endsWith. -/
def jsEndsWith (s t : String) : Bool :=
  let l := s.data
  let u := t.data
  if u.length ≤ l.length then l.drop (l.length - u.length) == u else false

def natOfDigits (ds : List Char) : Nat :=
  ds.foldl (fun n c => 10 * n + (c.toNat - 48)) 0

/-- Value of a decimal literal with numerator num, denominator den and decimal
exponent e, as a normalized rational. -/
def applyExp (num den : Nat) (e : Int) : Rat :=
  if 0 ≤ e then mkRat (num * 10 ^ e.toNat) den else mkRat num (den * 10 ^ (-e).toNat)

/-- Exponent suffix of a JS decimal literal: empty means exponent 0; an
e or E followed by an optional sign and at least one digit; anything else is
not a number. -/
def jsNumExp : List Char → Option Int
  | [] => some 0
  | c :: rest =>
    if c = 'e' ∨ c = 'E' then
      match rest with
      | '+' :: ds =>
        if ds ≠ [] ∧ ds.all Char.isDigit then some (natOfDigits ds) else none
      | '-' :: ds =>
        if ds ≠ [] ∧ ds.all Char.isDigit then some (-(natOfDigits ds : Int)) else none
      | ds =>
        if ds ≠ [] ∧ ds.all Char.isDigit then some (natOfDigits ds) else none
    else none

/-- Unsigned part of a JS decimal literal: digits, optionally with a decimal
point and fraction digits, then an optional exponent. -/
def jsNumUnsigned (cs : List Char) : Option Rat :=
  let p := cs.span Char.isDigit
  match p.2 with
  | '.' :: r2 =>
    let q := r2.span Char.isDigit
    if p.1.isEmpty ∧ q.1.isEmpty then none
    else
      match jsNumExp q.2 with
      | none => none
      | some e => some (applyExp (natOfDigits (p.1 ++ q.1)) (10 ^ q.1.length) e)
  | _ =>
    if p.1.isEmpty then none
    else
      match jsNumExp p.2 with
      | none => none
      | some e => some (applyExp (natOfDigits p.1) 1 e)

def jsNumSigned : List Char → Option Rat
  | '+' :: rest => jsNumUnsigned rest
  | '-' :: rest => (jsNumUnsigned rest).map Rat.neg
  | cs => jsNumUnsigned cs

/-- JS Number(string) coercion used by z.coerce.number(): whitespace is
trimmed, the empty string coerces to 0, and a signed decimal literal gives its
exact value. Other inputs (and the non-decimal literal forms) give none,
standing for NaN. -/
def jsNumber (s : String) : Option Rat :=
  let cs := trimChars s.data
  if cs.isEmpty then some (0 : Rat) else jsNumSigned cs

def apostropheChar : Char := Char.ofNat 39

/-- Characters the zod email regex allows inside the local part. -/
def isEmailLocalChar (c : Char) : Bool :=
  c.isAlpha || c.isDigit || c = '_' || c = apostropheChar || c = '+' || c = '-' || c = '.'

/-- Characters the zod email regex allows as the last local-part character. -/
def isEmailLocalEnd (c : Char) : Bool :=
  c.isAlpha || c.isDigit || c = '_' || c = '+' || c = '-'

def isDomainLabel : List Char → Bool
  | [] => false
  | c :: rest => (c.isAlpha || c.isDigit) && rest.all (fun d => d.isAlpha || d.isDigit || d = '-')

def noDoubleDot : List Char → Bool
  | c1 :: c2 :: rest => !(c1 = '.' && c2 = '.') && noDoubleDot (c2 :: rest)
  | _ => true

def zodEmailDomainOk (dom : List Char) : Bool :=
  match (splitOnChar '.' dom).reverse with
  | tld :: labels =>
    !labels.isEmpty && decide (2 ≤ tld.length) && tld.all Char.isAlpha && labels.all isDomainLabel
  | [] => false

/-- The zod .email() check, transcribed from the zod v3 email regular
expression: a local part of letters, digits, underscore, apostrophe, plus,
minus and dot that does not start with a dot, contains no double dot and ends
in a letter, digit, underscore, plus or minus; then an at sign; then one or
more alphanumeric-with-hyphen labels and an alphabetic top-level domain of at
least two letters. -/
def zodEmailValid (s : String) : Bool :=
  let cs := s.data
  match splitOnChar '@' cs with
  | [lp, dom] =>
    !lp.isEmpty && !(lp.head? == some '.') && noDoubleDot cs &&
      lp.all isEmailLocalChar &&
      (match lp.getLast? with
       | some c => isEmailLocalEnd c
       | none => false) &&
      zodEmailDomainOk dom
  | _ => false

/-- Avatar field checks run once a file is present: the second refine (size at
most MAX_FILE_SIZE) and the third refine (type in ACCEPTED_IMAGE_TYPES)
accumulate issues in order; the transform to the single file runs only when
both pass. -/
def avatarCheck (f : FileEntry) : Except (List String) FileEntry :=
  let i2 := if f.size ≤ MAX_FILE_SIZE then [] else [avatarSizeMsg]
  let i3 := if ACCEPTED_IMAGE_TYPES.contains f.type then [] else [avatarTypeMsg]
  if (i2 ++ i3).isEmpty then Except.ok f else Except.error (i2 ++ i3)

/-- Avatar field schema. When files.item(0) is null the first refine records
the required-image issue and marks the parse dirty, but zod still runs the
next chained refine, whose predicate reads the size of the null item and
throws a TypeError, discarding the recorded issue (outer error layer). -/
def parseAvatar (files : List FileEntry) : Except String (Except (List String) FileEntry) :=
  match files.head? with
  | none => Except.error nullSizeMsg
  | some f => Except.ok (avatarCheck f)

/-- One step of the name transform callback: word at index 0 of an empty word
is undefined, so calling toLocaleUpperCase on it throws. -/
def capitalizeChars : List Char → Except String (List Char)
  | [] => Except.error undefinedUpperMsg
  | c :: rest => Except.ok (Char.toUpper c :: rest)

/-- JS Array.prototype.map over the split words: the callback runs left to
right and the first exception aborts the whole map. -/
def capitalizeAll : List (List Char) → Except String (List (List Char))
  | [] => Except.ok []
  | w :: ws =>
    match capitalizeChars w with
    | Except.error e => Except.error e
    | Except.ok v =>
      match capitalizeAll ws with
      | Except.error e => Except.error e
      | Except.ok vs => Except.ok (v :: vs)

/-- JS Array.prototype.join with a single-space separator. -/
def joinSpace : List (List Char) → List Char
  | [] => []
  | [w] => w
  | w :: ws => w ++ ' ' :: joinSpace ws

/-- The word list the name transform maps over: trim, then split on the space
character (keeping empty segments, exactly as JS split does). -/
def nameWords (name : String) : List (List Char) :=
  splitOnChar ' ' (trimChars name.data)

/-- Name field schema: nonempty check first; the transform runs only when the
string is nonempty (a dirty parse skips transforms) and may throw on a word
with no first character. -/
def parseName (name : String) : Except String (Except (List String) String) :=
  if 1 ≤ name.length then
    match capitalizeAll (nameWords name) with
    | Except.error e => Except.error e
    | Except.ok ws => Except.ok (Except.ok (String.mk (joinSpace ws)))
  else Except.ok (Except.error [nameRequiredMsg])

/-- Total capitalization of one word, as the spec words it: uppercase the
first letter of each word (an empty segment has no first letter and is kept). -/
def specCapitalize : List Char → List Char
  | [] => []
  | c :: rest => Char.toUpper c :: rest

/-- Name normalization as the spec words it: trim, split on spaces, uppercase
the first letter of each word, rejoin with single spaces. -/
def specNormalizeName (name : String) : String :=
  String.mk (joinSpace ((nameWords name).map specCapitalize))

/-- Email field schema: the nonempty check, the email format check and the
toLowerCase transform run in order inside the string schema, accumulating
issues; the chained hotmail-suffix refine then runs on the lower-cased value
even when an earlier check failed. -/
def parseEmail (email : String) : Except (List String) String :=
  let i1 := if 1 ≤ email.length then [] else [emailRequiredMsg]
  let i2 := if zodEmailValid email then [] else [emailFormatMsg]
  let lowered := jsToLower email
  let i3 := if jsEndsWith lowered hotmailSuffix then [] else [hotmailMsg]
  if (i1 ++ i2 ++ i3).isEmpty then Except.ok lowered else Except.error (i1 ++ i2 ++ i3)

/-- Password field schema: minimum length 6. -/
def parsePassword (pw : String) : Except (List String) String :=
  if 6 ≤ pw.length then Except.ok pw else Except.error [passwordMsg]

/-- Issues of the min(1) and max(100) checks on a coerced knowledge number. -/
def knowledgeIssues (q : Rat) : List String :=
  (if 1 ≤ q then [] else [knowledgeMinMsg]) ++ (if q ≤ 100 then [] else [knowledgeMaxMsg])

/-- Knowledge field schema: z.coerce.number().min(1).max(100). A NaN coercion
is an invalid_type issue; otherwise the range checks accumulate. -/
def parseKnowledge (raw : String) : Except (List String) Rat :=
  match jsNumber raw with
  | none => Except.error [nanMsg]
  | some q =>
    if (knowledgeIssues q).isEmpty then Except.ok q else Except.error (knowledgeIssues q)

/-- One techs element: the issue list, and the parsed value unless the element
aborted (NaN knowledge is an invalid_type, which aborts the element). -/
def parseTech (t : RawTech) : List String × Option TechEntry :=
  let ti := if 1 ≤ t.title.length then [] else [titleRequiredMsg]
  match jsNumber t.knowledge with
  | none => (ti ++ [nanMsg], none)
  | some q => (ti ++ knowledgeIssues q, some ⟨t.title, q⟩)

/-- Techs field schema: the array min-length check runs before the elements
are parsed; an aborted element aborts the array so the chained refine is
skipped; otherwise the refine (some element has knowledge above 50) runs even
when the array is dirty. -/
def parseTechs (ts : List RawTech) : Except (List String) (List TechEntry) :=
  let minIssues := if 2 ≤ ts.length then [] else [minTechsMsg]
  let elems := ts.map parseTech
  let elemIssues := (elems.map Prod.fst).flatten
  if elems.any (fun e => e.2.isNone) then Except.error (minIssues ++ elemIssues)
  else
    let vals := elems.filterMap Prod.snd
    let refineIssues := if vals.any (fun t => decide ((50 : Rat) < t.knowledge)) then [] else [learningMsg]
    if (minIssues ++ elemIssues ++ refineIssues).isEmpty then Except.ok vals
    else Except.error (minIssues ++ elemIssues ++ refineIssues)

structure RawForm where
  avatar : List FileEntry
  name : String
  email : String
  password : String
  techs : List RawTech
deriving DecidableEq, Repr

/-- The normalized output type of the schema, CreateUserFormData. -/
structure CreateUserFormData where
  avatar : FileEntry
  name : String
  email : String
  password : String
  techs : List TechEntry
deriving DecidableEq, Repr

/-- Per-field issue messages of one failed parse. -/
structure FieldIssues where
  avatar : List String
  name : List String
  email : List String
  password : List String
  techs : List String
deriving DecidableEq, Repr

def errsOf {α : Type} : Except (List String) α → List String
  | Except.error es => es
  | Except.ok _ => []

/-- Combination of the five field results exactly as the object schema does:
success only when every field succeeded, otherwise the per-field issues. -/
def combineFields (ra : Except (List String) FileEntry)
    (rn : Except (List String) String)
    (re : Except (List String) String)
    (rp : Except (List String) String)
    (rt : Except (List String) (List TechEntry)) :
    Except FieldIssues CreateUserFormData :=
  match ra, rn, re, rp, rt with
  | Except.ok fa, Except.ok fn, Except.ok fe, Except.ok fp, Except.ok ft =>
    Except.ok ⟨fa, fn, fe, fp, ft⟩
  | _, _, _, _, _ =>
    Except.error ⟨errsOf ra, errsOf rn, errsOf re, errsOf rp, errsOf rt⟩

/-- Whole-schema parse: the object parses the keys in declaration order
(avatar, name, email, password, techs); an exception thrown in the avatar or
name callbacks propagates immediately and no result is produced. -/
def parseForm (f : RawForm) : Except String (Except FieldIssues CreateUserFormData) :=
  match parseAvatar f.avatar with
  | Except.error e => Except.error e
  | Except.ok ra =>
    match parseName f.name with
    | Except.error e => Except.error e
    | Except.ok rn =>
      Except.ok (combineFields ra rn (parseEmail f.email) (parsePassword f.password)
        (parseTechs f.techs))

/-- Issue messages the avatar field reports on a given FileList. -/
def avatarErrs (files : List FileEntry) : List String :=
  match parseAvatar files with
  | Except.ok (Except.error es) => es
  | _ => []

/-- Issue messages the name field reports on a given raw name. -/
def nameErrs (name : String) : List String :=
  match parseName name with
  | Except.ok (Except.error es) => es
  | _ => []

/-- Modelled from the spec: the remove(index) operation of the Dynamic Field
List (supplied by the useFieldArray collaborator, not by code under src):
deletes the entry at that position, preserving the order of the rest, with no
lower bound enforced at mutation time. -/
def removeAt {α : Type} (l : List α) (i : Nat) : List α :=
  l.take i ++ l.drop (i + 1)

inductive FormState where
  | idle
  | submitting
deriving DecidableEq, Repr

inductive FormEvent where
  | submitTrigger
  | resolveSuccess
  | resolveError
deriving DecidableEq, Repr

/-- Modelled from the spec: the whole-form submit state machine (the
isSubmitting flag and handleSubmit loop live in the useForm collaborator, not
in code under src; the source wires disabled to isSubmitting on the submit
button). A step returns the next state and whether a new submit run starts:
in Submitting a submit trigger is ignored, and resolution (success or error)
returns to Idle. -/
def stepForm : FormState → FormEvent → FormState × Bool
  | FormState.idle, FormEvent.submitTrigger => (FormState.submitting, true)
  | FormState.submitting, FormEvent.submitTrigger => (FormState.submitting, false)
  | _, FormEvent.resolveSuccess => (FormState.idle, false)
  | _, FormEvent.resolveError => (FormState.idle, false)

deriving instance DecidableEq for Except

def rawHalf : String := "50.5"

def rawEmpty : String := ""

def rawThirty : String := "30"

def rawFiftyOne : String := "51"

def nameClean : String := "elton santos"

def nameDouble : String := "a  b"

def emailUpper : String := "USER@HOTMAIL.COM"

def emailLowered : String := "user@hotmail.com"

def nameCleanResult : String := "Elton Santos"

def rawForty : String := "40"

def titleReact : String := "react"

def titleVue : String := "vue"

def passwordOk : String := "123456"

def shortPw : String := "123"

def badEmail : String := "not-an-email"

def mimeText : String := "text/plain"

/-- A name that passes the nonempty check but contains two consecutive
spaces, so its space-split word list contains an empty word. -/
def nameDoubleSpace : String := "Elton  Santos"

/-- A valid 1000-byte png avatar file. -/
def fileOk : FileEntry := ⟨nameCleanResult, 1000, mimePng⟩

/-- A submission whose only user-correctable issue is the missing avatar
file: every other field is valid. -/
def formMissingAvatar : RawForm :=
  ⟨[], nameClean, emailLowered, passwordOk, [⟨titleReact, rawFiftyOne⟩, ⟨titleVue, rawForty⟩]⟩

/-- A submission whose only user-correctable issue is the doubled internal
space in the name: every other field is valid. -/
def formDoubleName : RawForm :=
  ⟨[fileOk], nameDoubleSpace, emailLowered, passwordOk,
    [⟨titleReact, rawFiftyOne⟩, ⟨titleVue, rawForty⟩]⟩

/-- A submission violating the avatar rule (missing file) together with the
email, password and techs rules. -/
def formC8bad : RawForm := ⟨[], nameClean, badEmail, shortPw, []⟩

/-- A submission with a present avatar and a clean name, but violating the
email, password and techs rules. -/
def formC8mixed : RawForm := ⟨[fileOk], nameClean, badEmail, shortPw, []⟩

theorem capitalizeAll_eq_map (ws : List (List Char)) (h : ∀ w ∈ ws, w ≠ []) :
    capitalizeAll ws = Except.ok (ws.map specCapitalize) := by
  induction ws with
  | nil => rfl
  | cons w ws ih =>
    cases w with
    | nil => exact absurd rfl (h [] (List.mem_cons_self _ _))
    | cons c rest =>
      have hrec := ih (fun u hu => h u (List.mem_cons_of_mem _ hu))
      simp [capitalizeAll, capitalizeChars, hrec, specCapitalize]

theorem avatarErrs_of_ok (files : List FileEntry) (x : Except (List String) FileEntry)
    (h : parseAvatar files = Except.ok x) : avatarErrs files = errsOf x := by
  unfold avatarErrs
  rw [h]
  cases x <;> rfl

theorem nameErrs_of_ok (name : String) (x : Except (List String) String)
    (h : parseName name = Except.ok x) : nameErrs name = errsOf x := by
  unfold nameErrs
  rw [h]
  cases x <;> rfl

theorem combineFields_cases (a : Except (List String) FileEntry)
    (n e p : Except (List String) String) (t : Except (List String) (List TechEntry)) :
    (∃ d, combineFields a n e p t = Except.ok d) ∨
      combineFields a n e p t = Except.error ⟨errsOf a, errsOf n, errsOf e, errsOf p, errsOf t⟩ := by
  cases a <;> cases n <;> cases e <;> cases p <;> cases t <;> simp [combineFields, errsOf]

/-- Claim C1: the claim states that the Schema Validator never throws for
user-correctable issues (missing avatar, malformed name with extra internal
whitespace, and so on) and always returns either the normalized object or
per-field messages. The code violates this: on a submission whose only issue
is the missing avatar file the second avatar refine reads the size of the
null first item and throws, and on one whose only issue is a doubled internal
space in the name the transform calls toLocaleUpperCase on the undefined
first character of the empty split word and throws; in both cases the parse
produces no per-field messages at all. -/
theorem claimC1_validator_throws :
    parseForm formMissingAvatar = Except.error nullSizeMsg ∧
      parseForm formDoubleName = Except.error undefinedUpperMsg := by
  constructor <;> decide

/-- Claim C2 counterexample: the name with a doubled internal space is
nonempty, yet the validator does not return any normalized name for it (the
transform throws), refuting the claim for names with extra internal
whitespace. -/
theorem claimC2_counterexample :
    1 ≤ nameDouble.length ∧ parseName nameDouble = Except.error undefinedUpperMsg := by
  constructor <;> decide

/-- Claim C2 as amended: for every non-empty name whose trimmed form splits
on single spaces into words that are all non-empty (no doubled or trailing
internal spaces), the normalized name is obtained by trimming, splitting on
spaces, uppercasing the first letter of each word and rejoining with single
spaces. -/
theorem claimC2_name_normalization (name : String) (h1 : 1 ≤ name.length)
    (h2 : ∀ w ∈ nameWords name, w ≠ []) :
    parseName name = Except.ok (Except.ok (specNormalizeName name)) := by
  unfold parseName
  rw [if_pos h1, capitalizeAll_eq_map _ h2]
  rfl

/-- Claim C2 witness: the amended theorem applied to a concrete mixed-case
two-word name. -/
theorem claimC2_name_normalization_witness :
    (1 ≤ nameClean.length ∧ ∀ w ∈ nameWords nameClean, w ≠ []) ∧
      parseName nameClean = Except.ok (Except.ok (specNormalizeName nameClean)) :=
  ⟨⟨by decide, by decide⟩, claimC2_name_normalization nameClean (by decide) (by decide)⟩

/-- Claim C3: for every non-empty, syntactically valid email string the
validator lower-cases it and then requires the hotmail suffix; it fails with
exactly the suffix-specific message when the lower-cased email does not end
in the suffix, whatever the letter case of the input, and on success the
normalized email is the lower-cased input. -/
theorem claimC3_email_suffix (email : String) (h1 : 1 ≤ email.length)
    (h2 : zodEmailValid email = true) :
    parseEmail email =
      (if jsEndsWith (jsToLower email) hotmailSuffix then Except.ok (jsToLower email)
        else Except.error [hotmailMsg]) := by
  unfold parseEmail
  simp only [h1, if_pos, h2, if_true, List.nil_append]
  split <;> simp_all

/-- Claim C3 witness: the theorem applied to an upper-case hotmail address,
which normalizes to its lower-cased form. -/
theorem claimC3_email_suffix_witness :
    (1 ≤ emailUpper.length ∧ zodEmailValid emailUpper = true) ∧
      parseEmail emailUpper =
        (if jsEndsWith (jsToLower emailUpper) hotmailSuffix then Except.ok (jsToLower emailUpper)
          else Except.error [hotmailMsg]) :=
  ⟨⟨by decide, by decide⟩, claimC3_email_suffix emailUpper (by decide) (by decide)⟩

/-- Claim C4 counterexample: the raw knowledge input 50.5 coerces to the
non-integer rational 101/2, which the validator accepts, refuting the claim
that any non-integer value is rejected (the schema has no integer check). -/
theorem claimC4_counterexample :
    parseKnowledge rawHalf = Except.ok (mkRat 101 2) ∧ (mkRat 101 2).den ≠ 1 := by
  constructor <;> decide

/-- Claim C4 as amended: the knowledge value is a number coerced from the raw
input; a coercion to NaN is rejected as an invalid type, and otherwise the
value is accepted exactly when it lies in the range 1 to 100 inclusive,
whether or not it is an integer. -/
theorem claimC4_knowledge_range (raw : String) :
    (∀ q : Rat, jsNumber raw = some q →
      (parseKnowledge raw = Except.ok q ↔ (1 ≤ q ∧ q ≤ 100))) ∧
      (jsNumber raw = none → parseKnowledge raw = Except.error [nanMsg]) := by
  constructor
  · intro q hq
    unfold parseKnowledge
    rw [hq]
    by_cases ha : (1 : Rat) ≤ q <;> by_cases hb : q ≤ 100 <;>
      simp [knowledgeIssues, ha, hb]
  · intro hq
    unfold parseKnowledge
    rw [hq]

/-- Claim C4 witness: the amended theorem applied to the non-integer input
50.5, which is in range and therefore accepted. -/
theorem claimC4_knowledge_range_witness :
    jsNumber rawHalf = some (mkRat 101 2) ∧
      (parseKnowledge rawHalf = Except.ok (mkRat 101 2) ↔
        (1 ≤ mkRat 101 2 ∧ mkRat 101 2 ≤ 100)) :=
  ⟨by decide, (claimC4_knowledge_range rawHalf).1 (mkRat 101 2) (by decide)⟩

theorem avatarErrs_mk (nm : String) (sz : Nat) (ty : String) :
    avatarErrs [⟨nm, sz, ty⟩] =
      (if sz ≤ MAX_FILE_SIZE then [] else [avatarSizeMsg]) ++
        (if ACCEPTED_IMAGE_TYPES.contains ty then [] else [avatarTypeMsg]) := by
  have hpa : parseAvatar [⟨nm, sz, ty⟩] = Except.ok (avatarCheck ⟨nm, sz, ty⟩) := rfl
  unfold avatarErrs
  rw [hpa]
  unfold avatarCheck
  by_cases h1 : sz ≤ MAX_FILE_SIZE <;>
    by_cases h2 : ty ∈ ACCEPTED_IMAGE_TYPES <;>
      simp [h1, h2]

/-- Claim C5: a 6MB avatar file fails the size check, a file of exactly 5MB
passes it, and a file whose MIME type is image/gif, or any type outside the
accepted set, fails the type check regardless of its size. -/
theorem claimC5_avatar_rules (n t : String) (sz : Nat) :
    avatarSizeMsg ∈ avatarErrs [⟨n, 6 * 1024 * 1024, t⟩] ∧
      avatarSizeMsg ∉ avatarErrs [⟨n, 5 * 1024 * 1024, t⟩] ∧
      avatarTypeMsg ∈ avatarErrs [⟨n, sz, mimeGif⟩] ∧
      (ACCEPTED_IMAGE_TYPES.contains t = false → avatarTypeMsg ∈ avatarErrs [⟨n, sz, t⟩]) := by
  have hs6 : ¬ (6 * 1024 * 1024 ≤ MAX_FILE_SIZE) := by decide
  have hs5 : 5 * 1024 * 1024 ≤ MAX_FILE_SIZE := by decide
  have hgif : ¬ (ACCEPTED_IMAGE_TYPES.contains mimeGif = true) := by decide
  have hne : avatarSizeMsg ≠ avatarTypeMsg := by decide
  refine ⟨?_, ?_, ?_, ?_⟩
  · rw [avatarErrs_mk, if_neg hs6]
    by_cases hc : ACCEPTED_IMAGE_TYPES.contains t = true
    · rw [if_pos hc]
      simp
    · rw [if_neg hc]
      simp
  · rw [avatarErrs_mk, if_pos hs5]
    by_cases hc : ACCEPTED_IMAGE_TYPES.contains t = true
    · rw [if_pos hc]
      simp
    · rw [if_neg hc]
      simp [hne]
  · rw [avatarErrs_mk, if_neg hgif]
    by_cases hsz : sz ≤ MAX_FILE_SIZE
    · rw [if_pos hsz]
      simp
    · rw [if_neg hsz]
      simp
  · intro hct
    have hct2 : ¬ (ACCEPTED_IMAGE_TYPES.contains t = true) := by
      rw [hct]
      decide
    rw [avatarErrs_mk, if_neg hct2]
    by_cases hsz : sz ≤ MAX_FILE_SIZE
    · rw [if_pos hsz]
      simp
    · rw [if_neg hsz]
      simp

/-- Claim C5 witness: the conditional part of the theorem applied to a small
file of the unaccepted type text/plain. -/
theorem claimC5_avatar_rules_witness :
    ACCEPTED_IMAGE_TYPES.contains mimeText = false ∧
      avatarTypeMsg ∈ avatarErrs [⟨nameClean, 10, mimeText⟩] :=
  ⟨by decide, (claimC5_avatar_rules nameClean mimeText 10).2.2.2 (by decide)⟩

/-- Claim C6: a techs array of exactly two entries whose knowledge values are
both at most 50 fails with exactly the still-learning message, and the same
array with the first entry changed to the raw input 51 passes that rule and
the whole techs validation. -/
theorem claimC6_still_learning (t1 t2 k1 k2 : String) (q1 q2 : Rat)
    (ht1 : 1 ≤ t1.length) (ht2 : 1 ≤ t2.length)
    (hk1 : jsNumber k1 = some q1) (hk2 : jsNumber k2 = some q2)
    (hq1a : 1 ≤ q1) (hq1b : q1 ≤ 50) (hq2a : 1 ≤ q2) (hq2b : q2 ≤ 50) :
    parseTechs [⟨t1, k1⟩, ⟨t2, k2⟩] = Except.error [learningMsg] ∧
      parseTechs [⟨t1, rawFiftyOne⟩, ⟨t2, k2⟩] = Except.ok [⟨t1, 51⟩, ⟨t2, q2⟩] := by
  have hq1c : q1 ≤ 100 := hq1b.trans (by norm_num)
  have hq2c : q2 ≤ 100 := hq2b.trans (by norm_num)
  have h51 : jsNumber rawFiftyOne = some 51 := by decide
  have hn1 : ¬ (50 : Rat) < q1 := not_lt.mpr hq1b
  have hn2 : ¬ (50 : Rat) < q2 := not_lt.mpr hq2b
  have h51gt : (50 : Rat) < 51 := by norm_num
  have ha51 : (1 : Rat) ≤ 51 := by norm_num
  have hb51 : (51 : Rat) ≤ 100 := by norm_num
  constructor <;>
    simp [parseTechs, parseTech, knowledgeIssues, hk1, hk2, h51, ht1, ht2,
      hq1a, hq2a, hq1c, hq2c, hn1, hn2, h51gt, ha51, hb51]

/-- Claim C6 witness: the theorem applied to two concrete entries with
knowledge 30 and 40, and the same array with the first raw input changed
to 51. -/
theorem claimC6_still_learning_witness :
    parseTechs [⟨titleReact, rawThirty⟩, ⟨titleVue, rawForty⟩] = Except.error [learningMsg] ∧
      parseTechs [⟨titleReact, rawFiftyOne⟩, ⟨titleVue, rawForty⟩] =
        Except.ok [⟨titleReact, 51⟩, ⟨titleVue, 40⟩] :=
  claimC6_still_learning titleReact titleVue rawThirty rawForty 30 40
    (by decide) (by decide) (by decide) (by decide)
    (by decide) (by decide) (by decide) (by decide)

/-- Claim C7: a techs array of a single entry fails with exactly the
minimum-count message even when its knowledge is above 50, and the Dynamic
Field List remove operation deletes one entry of a two-entry list with no
lower bound enforced at mutation time, leaving the other entry in order. -/
theorem claimC7_min_count (t k : String) (q : Rat) (a b : RawTech)
    (ht : 1 ≤ t.length) (hk : jsNumber k = some q) (hgt : 50 < q) (hle : q ≤ 100) :
    parseTechs [⟨t, k⟩] = Except.error [minTechsMsg] ∧
      removeAt [a, b] 1 = [a] ∧ removeAt [a, b] 0 = [b] := by
  have hge : (1 : Rat) ≤ q := le_of_lt (lt_of_le_of_lt (by norm_num) hgt)
  refine ⟨?_, rfl, rfl⟩
  simp [parseTechs, parseTech, knowledgeIssues, hk, ht, hge, hle, hgt]

/-- Claim C7 witness: the theorem applied to a single concrete entry with
knowledge 51 and a concrete two-entry list. -/
theorem claimC7_min_count_witness :
    parseTechs [⟨titleReact, rawFiftyOne⟩] = Except.error [minTechsMsg] ∧
      removeAt [(⟨titleReact, rawFiftyOne⟩ : RawTech), ⟨titleVue, rawForty⟩] 1 =
        [⟨titleReact, rawFiftyOne⟩] ∧
      removeAt [(⟨titleReact, rawFiftyOne⟩ : RawTech), ⟨titleVue, rawForty⟩] 0 =
        [⟨titleVue, rawForty⟩] :=
  claimC7_min_count titleReact rawFiftyOne 51 ⟨titleReact, rawFiftyOne⟩ ⟨titleVue, rawForty⟩
    (by decide) (by decide) (by decide) (by decide)

/-- Claim C8 counterexample: on a submission violating the avatar rule
(missing file) together with the email, password and techs rules, the parse
throws in the avatar refine before the other keys are evaluated, so no field
reports any message, refuting the claim that a violation in one field never
prevents the rules of the other fields from reporting. -/
theorem claimC8_counterexample : parseForm formC8bad = Except.error nullSizeMsg := by decide

/-- Claim C8 as amended: on every submission whose avatar file list is
non-empty and whose name does not make the transform throw (its trimmed
space-split words are non-empty), the parse terminates normally and evaluates
every field rule with no short-circuit: either all fields pass, or the error
reports, for each field, exactly the issues of that field evaluated in
isolation. -/
theorem claimC8_no_short_circuit (f : RawForm) (ha : f.avatar ≠ [])
    (hn : 1 ≤ f.name.length → ∀ w ∈ nameWords f.name, w ≠ []) :
    ∃ r, parseForm f = Except.ok r ∧
      ((∃ d, r = Except.ok d) ∨
        r = Except.error ⟨avatarErrs f.avatar, nameErrs f.name, errsOf (parseEmail f.email),
          errsOf (parsePassword f.password), errsOf (parseTechs f.techs)⟩) := by
  obtain ⟨fa, rest, hfa⟩ : ∃ fa rest, f.avatar = fa :: rest := by
    cases hAv : f.avatar with
    | nil => exact absurd hAv ha
    | cons x xs => exact ⟨x, xs, rfl⟩
  have hA : parseAvatar f.avatar = Except.ok (avatarCheck fa) := by
    rw [hfa]
    rfl
  have hN : ∃ rn, parseName f.name = Except.ok rn := by
    by_cases h1 : 1 ≤ f.name.length
    · refine ⟨Except.ok (String.mk (joinSpace ((nameWords f.name).map specCapitalize))), ?_⟩
      unfold parseName
      rw [if_pos h1, capitalizeAll_eq_map _ (hn h1)]
    · refine ⟨Except.error [nameRequiredMsg], ?_⟩
      unfold parseName
      rw [if_neg h1]
  obtain ⟨rn, hNn⟩ := hN
  have hPF : parseForm f = Except.ok (combineFields (avatarCheck fa) rn (parseEmail f.email)
      (parsePassword f.password) (parseTechs f.techs)) := by
    unfold parseForm
    rw [hA, hNn]
  refine ⟨_, hPF, ?_⟩
  rw [avatarErrs_of_ok _ _ hA, nameErrs_of_ok _ _ hNn]
  exact combineFields_cases _ _ _ _ _

/-- Claim C8 witness: the amended theorem applied to a submission with a
valid avatar and name but invalid email, password and techs. -/
theorem claimC8_no_short_circuit_witness :
    (formC8mixed.avatar ≠ [] ∧
        (1 ≤ formC8mixed.name.length → ∀ w ∈ nameWords formC8mixed.name, w ≠ [])) ∧
      (∃ r, parseForm formC8mixed = Except.ok r ∧
        ((∃ d, r = Except.ok d) ∨
          r = Except.error ⟨avatarErrs formC8mixed.avatar, nameErrs formC8mixed.name,
            errsOf (parseEmail formC8mixed.email), errsOf (parsePassword formC8mixed.password),
            errsOf (parseTechs formC8mixed.techs)⟩)) :=
  ⟨⟨by decide, by decide⟩, claimC8_no_short_circuit formC8mixed (by decide) (by decide)⟩

/-- Claim C9: in the submit state machine, a submit trigger in the Submitting
state starts no new submit run and stays in Submitting; resolution by success
or by error returns to Idle, clearing the block; and a submit trigger in Idle
starts a run. -/
theorem claimC9_submit_state :
    stepForm FormState.submitting FormEvent.submitTrigger = (FormState.submitting, false) ∧
      stepForm FormState.submitting FormEvent.resolveSuccess = (FormState.idle, false) ∧
      stepForm FormState.submitting FormEvent.resolveError = (FormState.idle, false) ∧
      stepForm FormState.idle FormEvent.submitTrigger = (FormState.submitting, true) := by
  decide

/-- Claim C10: the empty raw knowledge input coerces to the number 0, which
fails the range check with exactly the minimum message; and no raw knowledge
input can ever produce the missing-value Required message, so an absent
knowledge value always surfaces as a range error. -/
theorem claimC10_empty_knowledge :
    jsNumber rawEmpty = some 0 ∧
      parseKnowledge rawEmpty = Except.error [knowledgeMinMsg] ∧
      ∀ (raw : String) (es : List String), parseKnowledge raw = Except.error es →
        requiredMsg ∉ es := by
  refine ⟨by decide, by decide, ?_⟩
  intro raw es h
  unfold parseKnowledge at h
  cases hjs : jsNumber raw with
  | none =>
    rw [hjs] at h
    injection h with h2
    subst h2
    decide
  | some q =>
    rw [hjs] at h
    have h2 : (if (knowledgeIssues q).isEmpty then Except.ok q
        else Except.error (knowledgeIssues q) : Except (List String) Rat) = Except.error es := h
    by_cases hi : (knowledgeIssues q).isEmpty
    · rw [if_pos hi] at h2
      simp at h2
    · rw [if_neg hi] at h2
      injection h2 with h3
      subst h3
      unfold knowledgeIssues
      by_cases hqa : (1 : Rat) ≤ q <;> by_cases hqb : q ≤ 100 <;>
        simp [hqa, hqb] <;> decide

/-- Claim C10 witness: the universally quantified part of the theorem applied
to the empty raw input, whose error list is the minimum-range message. -/
theorem claimC10_empty_knowledge_witness :
    parseKnowledge rawEmpty = Except.error [knowledgeMinMsg] ∧ requiredMsg ∉ [knowledgeMinMsg] :=
  ⟨by decide, claimC10_empty_knowledge.2.2 rawEmpty [knowledgeMinMsg] (by decide)⟩
